import Mathlib

/-
Verification of the go-gorm/cli template compiler / code-emission engine and
the migration runtime, following the repository's specification.

The generator core (template parser, clause assembler, code emitter) ships in
the repository but its implementation files are not part of the source tree
under verification (only the test suite internal/gen/generator_test.go is);
those parts are therefore modelled from the specification, and each such
definition is marked `Modelled from the spec:`.  The migration runtime
(migration/runtime/registry.go, db_state.go, adapter.go and the adapter
package in src/unnamed/part_001) is embedded from the source.
-/

namespace GormCli

/-- Text is modelled as a list of characters so that the byte-level trimming
and separator-stripping rules of the clause assembler can be reasoned about
structurally. -/
abbrev Chars := List Char

/-- Drop leading whitespace (the assembler's left trim). -/
def ltrim (s : Chars) : Chars := s.dropWhile Char.isWhitespace

/-- Drop trailing whitespace (the assembler's right trim). -/
def rtrim (s : Chars) : Chars := (s.reverse.dropWhile Char.isWhitespace).reverse

/-- Both-sides trim, used to decide whether a clause body rendered empty. -/
def trim (s : Chars) : Chars := ltrim (rtrim s)

/-- `beginsWith pat s` tests whether `pat` is a prefix of `s`. -/
def beginsWith : Chars → Chars → Bool
  | [], _ => true
  | _ :: _, [] => false
  | p :: ps, c :: cs => p == c && beginsWith ps cs

/-- The literal keyword `WHERE ` emitted by a non-empty where block. -/
def kwWHERE : Chars := [ 'W', 'H', 'E', 'R', 'E', ' ' ]

/-- The literal keyword `SET ` emitted by a non-empty set block. -/
def kwSET : Chars := [ 'S', 'E', 'T', ' ' ]

/-- The boolean connective `AND`. -/
def kwAND : Chars := [ 'A', 'N', 'D' ]

/-- The boolean connective `OR`. -/
def kwOR : Chars := [ 'O', 'R' ]

/-- `AND` reversed, for matching at the end of a fragment. -/
def kwANDrev : Chars := [ 'D', 'N', 'A' ]

/-- `OR` reversed, for matching at the end of a fragment. -/
def kwORrev : Chars := [ 'R', 'O' ]

/-- A connective is a whole token only if followed by whitespace or the end
of the text. -/
def wordBoundary : Chars → Bool
  | [] => true
  | c :: _ => c.isWhitespace

/-- The (already left-trimmed) body starts with the token `AND`. -/
def leadConnAND (t : Chars) : Bool := beginsWith kwAND t && wordBoundary (t.drop 3)

/-- The (already left-trimmed) body starts with the token `OR`. -/
def leadConnOR (t : Chars) : Bool := beginsWith kwOR t && wordBoundary (t.drop 2)

/-- Modelled from the spec: a `where` block strips a single leading boolean
connective (`AND`/`OR`) from its rendered body; anything else is left
untouched. -/
def stripLeadingConn (t : Chars) : Chars :=
  if leadConnAND t then ltrim (t.drop 3)
  else if leadConnOR t then ltrim (t.drop 2)
  else t

/-- The right-trimmed reversal of `s` ends with a dangling `AND` token. -/
def tailConnAND (r : Chars) : Bool := beginsWith kwANDrev r && wordBoundary (r.drop 3)

/-- The right-trimmed reversal of `s` ends with a dangling `OR` token. -/
def tailConnOR (r : Chars) : Bool := beginsWith kwORrev r && wordBoundary (r.drop 2)

/-- `s` ends (ignoring trailing whitespace) with a dangling connective token. -/
def endsWithConnTok (s : Chars) : Bool :=
  tailConnAND (s.reverse.dropWhile Char.isWhitespace)
  || tailConnOR (s.reverse.dropWhile Char.isWhitespace)

/-- Modelled from the spec: a `for` loop strips exactly one trailing boolean
connective token (`OR`/`AND`) left dangling after the last non-empty
iteration; if no such token dangles, the text is unchanged. -/
def stripTrailingConn (s : Chars) : Chars :=
  if tailConnAND (s.reverse.dropWhile Char.isWhitespace) then
    (((s.reverse.dropWhile Char.isWhitespace).drop 3).dropWhile Char.isWhitespace).reverse
  else if tailConnOR (s.reverse.dropWhile Char.isWhitespace) then
    (((s.reverse.dropWhile Char.isWhitespace).drop 2).dropWhile Char.isWhitespace).reverse
  else s

/-- `s` ends (ignoring trailing whitespace) with a comma. -/
def endsWithComma (s : Chars) : Bool :=
  beginsWith [ ',' ] (s.reverse.dropWhile Char.isWhitespace)

/-- Modelled from the spec: a `set` block strips a single trailing separator
(comma) from its rendered body; anything else is left untouched. -/
def stripTrailingComma (t : Chars) : Chars :=
  if endsWithComma t then
    (((t.reverse.dropWhile Char.isWhitespace).drop 1).dropWhile Char.isWhitespace).reverse
  else t

/-- Runtime values a method parameter (or a loop binding) can take. -/
inductive Val where
  | null
  | int (n : Int)
  | str (s : String)
  | bool (b : Bool)
  | list (elems : List Val)

/-- Modelled from the spec: the zero-value predicate of the condition
language — zero for numbers, the empty string, `false` for booleans, an empty
collection, and the missing/nil value. -/
def isZeroVal : Val → Bool
  | .null => true
  | .int n => n == 0
  | .str s => s == ""
  | .bool b => b == false
  | .list elems => elems.isEmpty

/-- A parameter snapshot: the fixed runtime values a render is driven by. -/
abbrev Snapshot := String → Option Val

/-- Modelled from the spec: condition expression trees of `if`/`for` guards —
comparisons against literals, the zero-value predicate, and logical
negation / conjunction / disjunction. -/
inductive Cond where
  | isZero (ref : String)
  | eqInt (ref : String) (n : Int)
  | eqStr (ref : String) (s : String)
  | neg (c : Cond)
  | conj (a b : Cond)
  | disj (a b : Cond)

/-- Modelled from the spec: pure, side-effect-free evaluation of a condition
against a fixed parameter snapshot, with left-to-right short-circuiting. -/
def evalCond : Cond → Snapshot → Bool
  | .isZero r => fun snap => isZeroVal ((snap r).getD .null)
  | .eqInt r n => fun snap =>
      match snap r with
      | some (.int m) => m == n
      | _ => false
  | .eqStr r s => fun snap =>
      match snap r with
      | some (.str t) => t == s
      | _ => false
  | .neg c => fun snap => !evalCond c snap
  | .conj a b => fun snap => evalCond a snap && evalCond b snap
  | .disj a b => fun snap => evalCond a snap || evalCond b snap

/-- Modelled from the spec: the TemplateDocument node kinds — literal SQL
text, the `table`/`col`/`arg` placeholders, sequencing, conditionals
(else-if chains are nested conditionals), `for` loops, and the `where`/`set`
clause blocks.  Trees nest to arbitrary depth. -/
inductive Doc where
  | nil
  | lit (text : String)
  | table
  | col (field : String)
  | arg (ref : String)
  | seq (a b : Doc)
  | ite (c : Cond) (thenB elseB : Doc)
  | loop (binding source : String) (body : Doc)
  | whereB (body : Doc)
  | setB (body : Doc)

/-- The rendering context: the owning table, the Struct/Field Catalog
(field name to column name), and the parameter snapshot. -/
structure Ctx where
  table : String
  catalog : List (String × String)
  snap : Snapshot

/-- Push a loop binding onto the snapshot (shadowing an outer name). -/
def Ctx.bind (ctx : Ctx) (name : String) (v : Val) : Ctx :=
  { ctx with snap := fun n => if n = name then some v else ctx.snap n }

/-- First-match association lookup (catalog and parameter lists). -/
def lookupAssoc {α : Type} : List (String × α) → String → Option α
  | [], _ => none
  | (k, v) :: rest, n => if k = n then some v else lookupAssoc rest n

/-- The runtime value a placeholder reference resolves to. -/
def valOf (ctx : Ctx) (r : String) : Val := (ctx.snap r).getD .null

/-- The column text a `@@column` reference resolves to (compilation has
already validated the reference against the catalog). -/
def colName (ctx : Ctx) (f : String) : Chars :=
  match lookupAssoc ctx.catalog f with
  | some c => c.data
  | none => []

/-- The collection a `for` loop iterates over. -/
def listOf : Option Val → List Val
  | some (.list vs) => vs
  | _ => []

/-- A non-empty where body emits `WHERE` and loses one leading connective;
an empty (whitespace-only) body emits nothing at all. -/
def renderWhere (b : Chars) : Chars :=
  if trim b = [] then [] else kwWHERE ++ stripLeadingConn (trim b)

/-- A non-empty set body emits `SET` and loses one trailing comma; an empty
(whitespace-only) body emits nothing at all. -/
def renderSet (b : Chars) : Chars :=
  if trim b = [] then [] else kwSET ++ stripTrailingComma (trim b)

/-- Modelled from the spec: the reference interpreter of the Document
Model / Clause Assembler.  Given a document and a context it produces the
rendered SQL text (runtime placeholders become `?` markers) together with
the ordered argument list, appending each argument at the position its
marker is rendered. -/
def render : Doc → Ctx → Chars × List Val
  | .nil => fun _ => ([], [])
  | .lit text => fun _ => (text.data, [])
  | .table => fun ctx => (ctx.table.data, [])
  | .col f => fun ctx => (colName ctx f, [])
  | .arg r => fun ctx => ([ '?' ], [valOf ctx r])
  | .seq a b => fun ctx =>
      ((render a ctx).1 ++ (render b ctx).1, (render a ctx).2 ++ (render b ctx).2)
  | .ite c thenB elseB => fun ctx =>
      if evalCond c ctx.snap then render thenB ctx else render elseB ctx
  | .loop b src body => fun ctx =>
      (stripTrailingConn
        (((listOf (ctx.snap src)).map (fun v => (render body (Ctx.bind ctx b v)).1)).flatten),
       ((listOf (ctx.snap src)).map (fun v => (render body (Ctx.bind ctx b v)).2)).flatten)
  | .whereB body => fun ctx =>
      (renderWhere (render body ctx).1, (render body ctx).2)
  | .setB body => fun ctx =>
      (renderSet (render body ctx).1, (render body ctx).2)

/-- Modelled from the spec: the values of the runtime placeholders in the
order the placeholder markers appear during a left-to-right, depth-first
walk of the rendered document (conditionals contribute their taken branch,
loops contribute one walk per element in collection order, clause blocks
contribute their body). -/
def renderedArgs : Doc → Ctx → List Val
  | .nil => fun _ => []
  | .lit _ => fun _ => []
  | .table => fun _ => []
  | .col _ => fun _ => []
  | .arg r => fun ctx => [valOf ctx r]
  | .seq a b => fun ctx => renderedArgs a ctx ++ renderedArgs b ctx
  | .ite c thenB elseB => fun ctx =>
      if evalCond c ctx.snap then renderedArgs thenB ctx else renderedArgs elseB ctx
  | .loop b src body => fun ctx =>
      ((listOf (ctx.snap src)).map (fun v => renderedArgs body (Ctx.bind ctx b v))).flatten
  | .whereB body => fun ctx => renderedArgs body ctx
  | .setB body => fun ctx => renderedArgs body ctx

/-- The parameter snapshot built from a MethodSpec's ordered parameter list:
name resolution goes through lookup only, so the declaration order of the
parameters is irrelevant as long as names are unique. -/
def mkCtx (table : String) (catalog : List (String × String))
    (params : List (String × Val)) : Ctx :=
  { table := table, catalog := catalog, snap := fun n => lookupAssoc params n }

/-- A method signature as consumed by the core: name, owning table, and the
declared parameter names. -/
structure MethodSpec where
  name : String
  table : String
  paramNames : List String

/-- Modelled from the spec: the generation-error taxonomy relevant to the
claims — unresolved `@@column`/field references (reported with method and
field name), unknown runtime parameters, and an entity failing the marker
contract. -/
inductive GenError where
  | unresolvedReference (method field : String)
  | unknownParam (method param : String)
  | invalidEntity (entity : String)
deriving DecidableEq

/-- The parsed, ready-to-emit representation of one method's template. -/
structure CompiledMethod where
  spec : MethodSpec
  tmpl : Doc

/-- All `@@column`/struct-field references a template touches (a syntactic,
compile-time walk: every branch of every conditional and loop is visited). -/
def colRefs : Doc → List String
  | .nil => []
  | .lit _ => []
  | .table => []
  | .col f => [f]
  | .arg _ => []
  | .seq a b => colRefs a ++ colRefs b
  | .ite _ thenB elseB => colRefs thenB ++ colRefs elseB
  | .loop _ _ body => colRefs body
  | .whereB body => colRefs body
  | .setB body => colRefs body

/-- All runtime placeholder references (`@name`) a template touches. -/
def argRefs : Doc → List String
  | .nil => []
  | .lit _ => []
  | .table => []
  | .col _ => []
  | .arg r => [r]
  | .seq a b => argRefs a ++ argRefs b
  | .ite _ thenB elseB => argRefs thenB ++ argRefs elseB
  | .loop _ _ body => argRefs body
  | .whereB body => argRefs body
  | .setB body => argRefs body

/-- Modelled from the spec: compilation of one method.  Placeholder/field
references are resolved against the Struct/Field Catalog at compile time
(not at emission time); an unresolved reference is a fatal error carrying
the method name and the missing field. -/
def compile (catalog : List (String × String)) (ms : MethodSpec) (tmpl : Doc) :
    Except GenError CompiledMethod :=
  match (colRefs tmpl).find? (fun f => (lookupAssoc catalog f).isNone) with
  | some f => .error (.unresolvedReference ms.name f)
  | none =>
    match (argRefs tmpl).find? (fun r => !ms.paramNames.contains r) with
    | some r => .error (.unknownParam ms.name r)
    | none => .ok { spec := ms, tmpl := tmpl }

/-- Modelled from the spec: the Code Emitter's deterministic rendering of a
compiled template into source text — a pure function of the document tree
with stable ordering and no timestamps or other non-deterministic
identifiers. -/
def emitDoc : Doc → String
  | .nil => ""
  | .lit text => "L[" ++ text ++ "]"
  | .table => "TABLE"
  | .col f => "COL[" ++ f ++ "]"
  | .arg r => "ARG[" ++ r ++ "]"
  | .seq a b => emitDoc a ++ emitDoc b
  | .ite _ thenB elseB => "IF[" ++ emitDoc thenB ++ "][" ++ emitDoc elseB ++ "]"
  | .loop b src body => "FOR[" ++ b ++ ":" ++ src ++ "][" ++ emitDoc body ++ "]"
  | .whereB body => "WHERE[" ++ emitDoc body ++ "]"
  | .setB body => "SET[" ++ emitDoc body ++ "]"

/-- Modelled from the spec: the emitted source unit for one compiled
method — a function of the CompiledMethod alone. -/
def emitFile (cm : CompiledMethod) : String :=
  "func " ++ cm.spec.name ++ "(args) (string, []any, error) [" ++ emitDoc cm.tmpl ++ "]"

/-- Ambient state a generation run could observe (wall clock, host name).
The emitter is required not to consult it. -/
structure RunEnv where
  timestamp : Nat
  hostName : String

/-- Modelled from the spec: the whole compile-and-emit pipeline for one
method.  A compile error aborts the run before any output text exists; the
ambient run environment is never consulted. -/
def pipeline (_env : RunEnv) (catalog : List (String × String)) (ms : MethodSpec)
    (tmpl : Doc) : Except GenError String :=
  match compile catalog ms tmpl with
  | .error e => .error e
  | .ok cm => .ok (emitFile cm)

/-- An entity type offered to the generator: its name and whether it
implements the catalog's required marker contract. -/
structure EntitySpec where
  name : String
  implementsMarker : Bool
deriving DecidableEq

/-- The generator configuration's entity deny list (ExcludeInterfaces). -/
structure GenConfig where
  excludeInterfaces : List String

/-- Modelled from the spec: the per-run entity gate.  An excluded entity is
skipped; an entity implementing the marker contract yields one output file;
an entity that neither implements the contract nor is excluded is a fatal
input error that aborts the whole run with no output. -/
def processEntities (cfg : GenConfig) : List EntitySpec → Except GenError (List (String × String))
  | [] => .ok []
  | e :: rest =>
    if e.name ∈ cfg.excludeInterfaces then processEntities cfg rest
    else if e.implementsMarker then
      match processEntities cfg rest with
      | .error err => .error err
      | .ok files => .ok ((e.name, "// generated for " ++ e.name) :: files)
    else .error (.invalidEntity e.name)

/-- A registered migration (migration/runtime/registry.go, Migration): the
Up/Down closures are abstracted into an opaque payload tag. -/
structure Mig where
  name : String
  tag : Nat
deriving DecidableEq

/-- The sort relation used by registeredMigrations: ascending Name. -/
def migLe (a b : Mig) : Prop := a.name ≤ b.name

instance : DecidableRel migLe := fun a b => inferInstanceAs (Decidable (a.name ≤ b.name))

instance : IsTotal Mig migLe := ⟨fun a b => le_total a.name b.name⟩

instance : IsTrans Mig migLe := ⟨fun _ _ _ h₁ h₂ => le_trans h₁ h₂⟩

/-- Strict version of the sort relation, for uniqueness arguments. -/
def migLt (a b : Mig) : Prop := a.name < b.name

instance : IsAntisymm Mig migLt := ⟨fun _ _ h₁ h₂ => absurd h₂ (lt_asymm h₁)⟩

/-- registeredMigrations (migration/runtime/registry.go:33-47 and the
adapter package in src/unnamed/part_001:311-323): collect the registry map's
values — the map yields them in an arbitrary order, modelled by quantifying
over permutations of the registry list — and sort them by Name ascending. -/
def registeredMigrations (registry : List Mig) : List Mig :=
  List.insertionSort migLe registry

/-- pendingMigrations (migration/runtime/db_state.go:40-57): keep, in
registered order, the registered migrations whose name is not recorded as
applied. -/
def pendingMigrations (applied : List String) (registry : List Mig) : List Mig :=
  (registeredMigrations registry).filter (fun m => !applied.contains m.name)

/-- The database state the adapter's Up loop manipulates: the
schema_migrations bookkeeping rows (applied names, in insertion order) and
an abstract schema component the migrations themselves act on. -/
structure DBState where
  applied : List String
  schema : Nat
deriving DecidableEq

/-- A migration as driven by the adapter package's Up loop
(src/unnamed/part_001): its name and its fallible Up action on the schema. -/
structure MigOp where
  name : String
  up : Nat → Except String Nat

/-- recordApplied: insert one schema_migrations row for the given name.
Modelled from the spec: the adapter package's recordApplied implementation
is not part of the tree; it inserts a row keyed by the migration name. -/
def recordApplied (name : String) (s : DBState) : DBState :=
  { s with applied := s.applied ++ [name] }

/-- The transaction body of one iteration of Up
(src/unnamed/part_001:115-120): run the migration's Up, then record it as
applied; an error aborts the transaction, which rolls the state back.
Modelled from the spec: gorm's Transaction discards all of the closure's
writes when the closure returns an error. -/
def upTransaction (m : MigOp) (s : DBState) : Except String DBState :=
  match m.up s.schema with
  | .error e => .error e
  | .ok n => .ok (recordApplied m.name { s with schema := n })

/-- The Up loop of the adapter package (src/unnamed/part_001:114-124): apply
each pending migration inside its own transaction; on the first error stop
immediately, keeping the state from before the failing transaction. -/
def adapterUp : List MigOp → DBState → DBState × Option String
  | [], s => (s, none)
  | m :: rest, s =>
    match upTransaction m s with
    | .error e => (s, some e)
    | .ok s' => adapterUp rest s'

/-- Demo template for the where-block witness: renders `AND age=?`. -/
def whereDemoBody : Doc := Doc.seq (.lit "AND age=") (.arg "age")

/-- Demo context for the where-block witness. -/
def whereDemoCtx : Ctx := mkCtx "users" [] [("age", Val.int 18)]

/-- Demo template for the set-block witness: renders `name=?, age=?, `. -/
def setDemoBody : Doc :=
  Doc.seq (.lit "name=") (Doc.seq (.arg "name")
    (Doc.seq (.lit ", age=") (Doc.seq (.arg "age") (.lit ", "))))

/-- Demo context for the set-block witness. -/
def setDemoCtx : Ctx := mkCtx "users" [] [("name", Val.str "x"), ("age", Val.int 18)]

/-- Demo fragment for the for-loop witness: `(cond1) OR (cond2)`. -/
def forDemoFrag : Chars := "(cond1) OR (cond2)".data

/-- Demo template for the argument-order witness:
`@@table WHERE id=? AND name=?`. -/
def argOrderDemoDoc : Doc :=
  Doc.seq .table (Doc.seq (.lit " WHERE id=") (Doc.seq (.arg "id")
    (Doc.seq (.lit " AND name=") (.arg "name"))))

/-- Demo parameter list for the argument-order witness (declaration order
`id, name`). -/
def argOrderDemoParams : List (String × Val) := [("id", Val.int 3), ("name", Val.str "x")]

/-- The same parameters declared in the opposite order. -/
def argOrderDemoParamsRev : List (String × Val) := [("name", Val.str "x"), ("id", Val.int 3)]

/-- Demo template for the unresolved-reference witness. -/
def unresolvedDemoDoc : Doc := Doc.seq (.lit "SELECT ") (.col "missing_field")

/-- Demo method for the unresolved-reference witness. -/
def unresolvedDemoMs : MethodSpec := { name := "FindX", table := "users", paramNames := [] }

/-- Demo inputs for the determinism witness. -/
def detDemoMs : MethodSpec := { name := "GetByID", table := "users", paramNames := ["id"] }

/-- Demo template for the determinism witness. -/
def detDemoDoc : Doc := Doc.seq .table (Doc.seq (.lit " WHERE id=") (.arg "id"))

/-- The entity of the exclude-interfaces witness: it does not implement the
marker contract (mirrors TestExcludeInterfacesSkipsInvalidInterfaces). -/
def entityDemo : EntitySpec := { name := "Entity", implementsMarker := false }

/-- Demo registries for the migration-ordering witness. -/
def migDemoRegistry : List Mig := [{ name := "b", tag := 1 }, { name := "a", tag := 2 }]

/-- The same registry observed in the map's other iteration order. -/
def migDemoRegistry' : List Mig := [{ name := "a", tag := 2 }, { name := "b", tag := 1 }]

/-- Demo migration that succeeds, for the Up-loop witness. -/
def migOpInit : MigOp := { name := "001_init", up := fun n => .ok (n + 1) }

/-- Demo migration whose Up fails, for the Up-loop witness. -/
def migOpBad : MigOp := { name := "002_bad", up := fun _ => .error "boom" }

/-- Demo migration that would follow the failing one. -/
def migOpNext : MigOp := { name := "003_next", up := fun n => .ok n }

/-- C1: determinism of the compile-and-emit pipeline.  Running it twice on
identical inputs — whatever the ambient run environment (wall clock, host)
looks like on each run — produces byte-identical output: the emitted text is
a function of the catalog, the MethodSpec and the template alone, with no
timestamps or other non-deterministic content. -/
theorem pipeline_deterministic (env env' : RunEnv)
    (catalog catalog' : List (String × String)) (ms ms' : MethodSpec)
    (tmpl tmpl' : Doc)
    (hc : catalog = catalog') (hm : ms = ms') (ht : tmpl = tmpl') :
    pipeline env catalog ms tmpl = pipeline env' catalog' ms' tmpl' := by
  subst hc; subst hm; subst ht; rfl

/-- Witness for C1 at a concrete input: two runs under different clocks and
hosts emit the same bytes. -/
theorem pipeline_deterministic_witness :
    pipeline ⟨0, "hostA"⟩ [("id", "id")] detDemoMs detDemoDoc
      = pipeline ⟨999, "hostB"⟩ [("id", "id")] detDemoMs detDemoDoc :=
  pipeline_deterministic ⟨0, "hostA"⟩ ⟨999, "hostB"⟩ [("id", "id")] [("id", "id")]
    detDemoMs detDemoMs detDemoDoc detDemoDoc rfl rfl rfl

/-- C2: a `where` block whose rendered body is empty (up to whitespace)
emits nothing at all; a non-empty body emits the literal keyword `WHERE`
followed by the body with a single leading `AND`/`OR` connective stripped —
exactly one token is removed when one leads, and nothing otherwise. -/
theorem where_block_semantics (body : Doc) (ctx : Ctx) :
    (trim (render body ctx).1 = [] →
      render (Doc.whereB body) ctx = ([], (render body ctx).2))
    ∧ (trim (render body ctx).1 ≠ [] →
      render (Doc.whereB body) ctx
        = (kwWHERE ++ stripLeadingConn (trim (render body ctx).1), (render body ctx).2))
    ∧ (∀ s : Chars, stripLeadingConn (kwAND ++ ' ' :: s) = ltrim s)
    ∧ (∀ s : Chars, stripLeadingConn (kwOR ++ ' ' :: s) = ltrim s)
    ∧ (∀ s : Chars, leadConnAND s = false → leadConnOR s = false →
        stripLeadingConn s = s) := by
  refine ⟨?_, ?_, ?_, ?_, ?_⟩
  · intro h; simp [render, renderWhere, h]
  · intro h; simp [render, renderWhere, h]
  · intro s
    simp [stripLeadingConn, leadConnAND, kwAND, beginsWith, wordBoundary, ltrim,
      List.dropWhile]
  · intro s
    simp [stripLeadingConn, leadConnAND, leadConnOR, kwAND, kwOR, beginsWith,
      wordBoundary, ltrim, List.dropWhile]
  · intro s h₁ h₂; simp [stripLeadingConn, h₁, h₂]

/-- Witness for C2: a body rendering `AND age=?` is non-empty and yields
`WHERE` plus the stripped body. -/
theorem where_block_semantics_witness :
    trim (render whereDemoBody whereDemoCtx).1 ≠ []
    ∧ render (Doc.whereB whereDemoBody) whereDemoCtx
        = (kwWHERE ++ stripLeadingConn (trim (render whereDemoBody whereDemoCtx).1),
           (render whereDemoBody whereDemoCtx).2) :=
  ⟨by decide, (where_block_semantics whereDemoBody whereDemoCtx).2.1 (by decide)⟩

/-- C3: a `set` block whose rendered body is empty (up to whitespace) emits
nothing at all; a non-empty body emits the keyword `SET` followed by the
body with a single trailing comma separator stripped — exactly one comma is
removed when one trails, and nothing otherwise. -/
theorem set_block_semantics (body : Doc) (ctx : Ctx) :
    (trim (render body ctx).1 = [] →
      render (Doc.setB body) ctx = ([], (render body ctx).2))
    ∧ (trim (render body ctx).1 ≠ [] →
      render (Doc.setB body) ctx
        = (kwSET ++ stripTrailingComma (trim (render body ctx).1), (render body ctx).2))
    ∧ (∀ s : Chars, stripTrailingComma (s ++ [ ',' ]) = rtrim s)
    ∧ (∀ s : Chars, stripTrailingComma (s ++ [ ',', ' ' ]) = rtrim s)
    ∧ (∀ s : Chars, endsWithComma s = false → stripTrailingComma s = s) := by
  refine ⟨?_, ?_, ?_, ?_, ?_⟩
  · intro h; simp [render, renderSet, h]
  · intro h; simp [render, renderSet, h]
  · intro s
    simp [stripTrailingComma, endsWithComma, beginsWith, rtrim, List.dropWhile]
  · intro s
    simp [stripTrailingComma, endsWithComma, beginsWith, rtrim, List.dropWhile]
  · intro s h; simp [stripTrailingComma, h]

/-- Witness for C3: a body rendering `name=?, age=?, ` is non-empty and
yields `SET` plus the body with the trailing comma stripped. -/
theorem set_block_semantics_witness :
    trim (render setDemoBody setDemoCtx).1 ≠ []
    ∧ render (Doc.setB setDemoBody) setDemoCtx
        = (kwSET ++ stripTrailingComma (trim (render setDemoBody setDemoCtx).1),
           (render setDemoBody setDemoCtx).2) :=
  ⟨by decide, (set_block_semantics setDemoBody setDemoCtx).2.1 (by decide)⟩

/-- C6: a `for` loop renders its body once per element of the runtime
collection in the collection's own order, concatenates the per-iteration
renders, and strips exactly one dangling trailing `OR`/`AND` token: a
fragment ending in ` OR ` or ` AND ` loses only that final token (whatever
text precedes it, in particular earlier literal fragments, is untouched),
and a fragment with no dangling connective is left unchanged. -/
theorem for_loop_separator (b src : String) (body : Doc) (ctx : Ctx) :
    render (Doc.loop b src body) ctx
      = (stripTrailingConn
          (((listOf (ctx.snap src)).map (fun v => (render body (Ctx.bind ctx b v)).1)).flatten),
         ((listOf (ctx.snap src)).map (fun v => (render body (Ctx.bind ctx b v)).2)).flatten)
    ∧ (∀ s : Chars, stripTrailingConn (s ++ [ ' ', 'O', 'R', ' ' ]) = rtrim s)
    ∧ (∀ s : Chars, stripTrailingConn (s ++ [ ' ', 'A', 'N', 'D', ' ' ]) = rtrim s)
    ∧ (∀ s : Chars, endsWithConnTok s = false → stripTrailingConn s = s) := by
  refine ⟨rfl, ?_, ?_, ?_⟩
  · intro s
    simp [stripTrailingConn, tailConnAND, tailConnOR, kwANDrev, kwORrev, beginsWith,
      wordBoundary, rtrim, List.dropWhile]
  · intro s
    simp [stripTrailingConn, tailConnAND, tailConnOR, kwANDrev, kwORrev, beginsWith,
      wordBoundary, rtrim, List.dropWhile]
  · intro s h
    have h' := h
    simp [endsWithConnTok, Bool.or_eq_false_iff] at h'
    simp [stripTrailingConn, h'.1, h'.2]

/-- Witness for C6: the `(cond1) OR (cond2) OR ` concatenation loses exactly
its final dangling `OR`, and a connective-free fragment is unchanged. -/
theorem for_loop_separator_witness :
    stripTrailingConn (forDemoFrag ++ [ ' ', 'O', 'R', ' ' ]) = rtrim forDemoFrag
    ∧ (endsWithConnTok forDemoFrag = false ∧ stripTrailingConn forDemoFrag = forDemoFrag) :=
  ⟨(for_loop_separator "v" "ids" Doc.nil (mkCtx "users" [] [])).2.1 forDemoFrag,
   ⟨by decide,
    (for_loop_separator "v" "ids" Doc.nil (mkCtx "users" [] [])).2.2.2 forDemoFrag (by decide)⟩⟩

/-- C5: a template referencing a `@@column`/struct-field path absent from
the Struct/Field Catalog fails at compile time with an
UnresolvedReferenceError naming the method and a missing field; the
pipeline therefore returns that error and never produces output text. -/
theorem unresolved_reference_fails_closed (env : RunEnv)
    (catalog : List (String × String)) (ms : MethodSpec) (tmpl : Doc) (f : String)
    (hmem : f ∈ colRefs tmpl) (hmiss : lookupAssoc catalog f = none) :
    ∃ f', compile catalog ms tmpl = .error (.unresolvedReference ms.name f')
      ∧ pipeline env catalog ms tmpl = .error (.unresolvedReference ms.name f')
      ∧ f' ∈ colRefs tmpl ∧ lookupAssoc catalog f' = none := by
  cases hfind : (colRefs tmpl).find? (fun g => (lookupAssoc catalog g).isNone) with
  | none =>
    exfalso
    have h := List.find?_eq_none.mp hfind f hmem
    simp [hmiss] at h
  | some f' =>
    refine ⟨f', ?_, ?_, List.mem_of_find?_eq_some hfind, ?_⟩
    · simp [compile, hfind]
    · simp [pipeline, compile, hfind]
    · have h := List.find?_some hfind
      simpa using h

/-- Witness for C5: `missing_field` is referenced but absent from the
catalog, so compilation aborts with an UnresolvedReferenceError. -/
theorem unresolved_reference_fails_closed_witness :
    ("missing_field" ∈ colRefs unresolvedDemoDoc
      ∧ lookupAssoc [("name", "name")] "missing_field" = none)
    ∧ ∃ f', compile [("name", "name")] unresolvedDemoMs unresolvedDemoDoc
          = .error (.unresolvedReference unresolvedDemoMs.name f')
        ∧ pipeline ⟨0, "h"⟩ [("name", "name")] unresolvedDemoMs unresolvedDemoDoc
          = .error (.unresolvedReference unresolvedDemoMs.name f')
        ∧ f' ∈ colRefs unresolvedDemoDoc ∧ lookupAssoc [("name", "name")] f' = none :=
  ⟨⟨by decide, by decide⟩,
   unresolved_reference_fails_closed ⟨0, "h"⟩ [("name", "name")] unresolvedDemoMs
     unresolvedDemoDoc "missing_field" (by decide) (by decide)⟩

/-- C8: an entity that does not implement the marker contract and is not on
the ExcludeInterfaces list makes the generation run fail with a fatal input
error and no output; when every such entity is excluded, generation
succeeds and emits exactly one file per remaining (non-excluded) entity. -/
theorem exclude_interfaces_gate (cfg : GenConfig) (es : List EntitySpec) :
    ((∀ e ∈ es, e.implementsMarker = false → e.name ∈ cfg.excludeInterfaces) →
      ∃ out, processEntities cfg es = .ok out
        ∧ out.map Prod.fst
            = (es.filter (fun e => e.name ∉ cfg.excludeInterfaces)).map EntitySpec.name)
    ∧ (∀ e ∈ es, e.implementsMarker = false → e.name ∉ cfg.excludeInterfaces →
        ∃ bad, processEntities cfg es = .error (.invalidEntity bad)) := by
  constructor
  · induction es with
    | nil => intro _; exact ⟨[], rfl, rfl⟩
    | cons e rest ih =>
      intro h
      obtain ⟨out, hok, hmap⟩ := ih (fun e' he' hm => h e' (List.mem_cons_of_mem _ he') hm)
      by_cases hex : e.name ∈ cfg.excludeInterfaces
      · refine ⟨out, ?_, ?_⟩
        · simp [processEntities, hex, hok]
        · simp [List.filter_cons, hex, hmap]
      · have hm : e.implementsMarker = true := by
          cases hmv : e.implementsMarker with
          | true => rfl
          | false => exact absurd (h e (List.mem_cons_self e rest) hmv) hex
        refine ⟨(e.name, "// generated for " ++ e.name) :: out, ?_, ?_⟩
        · simp [processEntities, hex, hm, hok]
        · simp [List.filter_cons, hex, hmap]
  · induction es with
    | nil => intro e he; exact absurd he (List.not_mem_nil e)
    | cons e' rest ih =>
      intro e he hm hex
      by_cases hex' : e'.name ∈ cfg.excludeInterfaces
      · have he2 : e ∈ rest := by
          rcases List.mem_cons.mp he with rfl | h2
          · exact absurd hex' hex
          · exact h2
        obtain ⟨bad, hb⟩ := ih e he2 hm hex
        exact ⟨bad, by simp [processEntities, hex', hb]⟩
      · cases hm' : e'.implementsMarker with
        | false => exact ⟨e'.name, by simp [processEntities, hex', hm']⟩
        | true =>
          have he2 : e ∈ rest := by
            rcases List.mem_cons.mp he with rfl | h2
            · rw [hm'] at hm; exact absurd hm (by simp)
            · exact h2
          obtain ⟨bad, hb⟩ := ih e he2 hm hex
          exact ⟨bad, by simp [processEntities, hex', hm', hb]⟩

/-- Witness for C8, mirroring TestExcludeInterfacesSkipsInvalidInterfaces:
with `Entity` on the exclude list generation succeeds (emitting no file for
it); without the exclusion the run aborts with a fatal error. -/
theorem exclude_interfaces_gate_witness :
    (∃ out, processEntities ⟨["Entity"]⟩ [entityDemo] = .ok out
      ∧ out.map Prod.fst
          = (([entityDemo] : List EntitySpec).filter
              (fun e => e.name ∉ (["Entity"] : List String))).map EntitySpec.name)
    ∧ ∃ bad, processEntities ⟨[]⟩ [entityDemo] = .error (.invalidEntity bad) :=
  ⟨(exclude_interfaces_gate ⟨["Entity"]⟩ [entityDemo]).1 (by decide),
   (exclude_interfaces_gate ⟨[]⟩ [entityDemo]).2 entityDemo (by decide) (by decide) (by decide)⟩

/-- C9: registeredMigrations sorts the registry by ascending migration name;
since the Go map yields its values in an arbitrary order, any two iteration
orders (permutations with unique names, as map keys are) produce the same
sorted list.  pendingMigrations, which Up applies in order and Status/Diff
list in order, is a filtered copy of that list and is sorted the same way. -/
theorem registered_migrations_sorted (registry registry' : List Mig)
    (applied : List String) :
    List.Sorted migLe (registeredMigrations registry)
    ∧ List.Sorted migLe (pendingMigrations applied registry)
    ∧ (registry.Perm registry' → (registry.map Mig.name).Nodup →
        registeredMigrations registry = registeredMigrations registry') := by
  refine ⟨List.sorted_insertionSort migLe registry, ?_, ?_⟩
  · exact List.Pairwise.sublist (List.filter_sublist _)
      (List.sorted_insertionSort migLe registry)
  · intro hperm hnodup
    have hnd : List.Pairwise (fun a b : Mig => a.name ≠ b.name) registry :=
      List.pairwise_map.mp hnodup
    have hsymm : ∀ {x y : Mig}, x.name ≠ y.name → y.name ≠ x.name := fun h => h.symm
    have hp₁ : (registeredMigrations registry).Perm registry :=
      List.perm_insertionSort migLe registry
    have hp₂ : (registeredMigrations registry').Perm registry' :=
      List.perm_insertionSort migLe registry'
    have hnd' : List.Pairwise (fun a b : Mig => a.name ≠ b.name) registry' :=
      (hperm.pairwise_iff hsymm).mp hnd
    have hlt₁ : List.Sorted migLt (registeredMigrations registry) :=
      ((List.sorted_insertionSort migLe registry).and
        ((hp₁.pairwise_iff hsymm).mpr hnd)).imp
        (fun h => lt_of_le_of_ne h.1 h.2)
    have hlt₂ : List.Sorted migLt (registeredMigrations registry') :=
      ((List.sorted_insertionSort migLe registry').and
        ((hp₂.pairwise_iff hsymm).mpr hnd')).imp
        (fun h => lt_of_le_of_ne h.1 h.2)
    exact List.eq_of_perm_of_sorted ((hp₁.trans hperm).trans hp₂.symm) hlt₁ hlt₂

/-- Witness for C9: the two iteration orders of a two-element registry both
sort to the same name-ascending list. -/
theorem registered_migrations_sorted_witness :
    migDemoRegistry.Perm migDemoRegistry'
    ∧ (migDemoRegistry.map Mig.name).Nodup
    ∧ registeredMigrations migDemoRegistry = registeredMigrations migDemoRegistry' :=
  ⟨by decide,
   by decide,
   (registered_migrations_sorted migDemoRegistry migDemoRegistry' []).2.2
     (by decide) (by decide)⟩

/-- Structural helper: running the Up loop over a concatenation runs the
first part and, only if it fully succeeded, continues with the second from
the reached state. -/
theorem adapterUp_append (l₁ l₂ : List MigOp) (s : DBState) :
    adapterUp (l₁ ++ l₂) s =
      match adapterUp l₁ s with
      | (t, none) => adapterUp l₂ t
      | (t, some e) => (t, some e) := by
  induction l₁ generalizing s with
  | nil => simp [adapterUp]
  | cons m rest ih =>
    cases htx : upTransaction m s with
    | error e => simp [adapterUp, htx]
    | ok s' => simp [adapterUp, htx, ih]

/-- Structural helper: a fully successful Up run records exactly the names
of the migrations it ran, in order, after the previously applied ones. -/
theorem adapterUp_ok_applied (l : List MigOp) (s t : DBState)
    (h : adapterUp l s = (t, none)) :
    t.applied = s.applied ++ l.map MigOp.name := by
  induction l generalizing s with
  | nil =>
    simp [adapterUp] at h
    subst h
    simp
  | cons m rest ih =>
    cases htx : upTransaction m s with
    | error e => simp [adapterUp, htx] at h
    | ok s' =>
      simp [adapterUp, htx] at h
      have hs' : s'.applied = s.applied ++ [m.name] := by
        cases hup : m.up s.schema with
        | error e => simp [upTransaction, hup] at htx
        | ok n =>
          simp [upTransaction, hup, recordApplied] at htx
          rw [← htx]
      rw [ih s' h, hs']
      simp

/-- C10: in the adapter package's Up loop each migration's Up runs together
with the insertion of its applied-state record inside one transaction, so
when a migration's Up fails the loop returns that error immediately with
the state rolled back to just before that migration: the failing migration
is not recorded as applied, while the migrations applied earlier in the
same run remain recorded. -/
theorem up_failure_not_recorded (pre : List MigOp) (m : MigOp) (rest : List MigOp)
    (s s' : DBState) (e : String)
    (hpre : adapterUp pre s = (s', none))
    (hfail : m.up s'.schema = .error e) :
    adapterUp (pre ++ m :: rest) s = (s', some e)
    ∧ s'.applied = s.applied ++ pre.map MigOp.name
    ∧ (m.name ∉ s.applied → m.name ∉ pre.map MigOp.name →
        m.name ∉ (adapterUp (pre ++ m :: rest) s).1.applied) := by
  have h1 : adapterUp (pre ++ m :: rest) s = (s', some e) := by
    rw [adapterUp_append, hpre]
    simp [adapterUp, upTransaction, hfail]
  have h2 := adapterUp_ok_applied pre s s' hpre
  refine ⟨h1, h2, ?_⟩
  intro hn1 hn2
  rw [h1]
  simp [h2, hn1, hn2]

/-- Witness for C10: after `001_init` succeeds, `002_bad` fails; the run
stops with the error, `001_init` stays recorded, `002_bad` is not. -/
theorem up_failure_not_recorded_witness :
    adapterUp ([migOpInit] ++ migOpBad :: [migOpNext]) ⟨[], 0⟩
      = (⟨["001_init"], 1⟩, some "boom")
    ∧ (⟨["001_init"], 1⟩ : DBState).applied = ([] : List String) ++ [migOpInit].map MigOp.name
    ∧ (migOpBad.name ∉ ([] : List String) → migOpBad.name ∉ [migOpInit].map MigOp.name →
        migOpBad.name ∉ (adapterUp ([migOpInit] ++ migOpBad :: [migOpNext]) ⟨[], 0⟩).1.applied) :=
  up_failure_not_recorded [migOpInit] migOpBad [migOpNext] ⟨[], 0⟩ ⟨["001_init"], 1⟩
    "boom" rfl rfl

/-- Name resolution in an association list only depends on which value each
name maps to, so reordering entries with unique names changes nothing. -/
theorem lookupAssoc_perm {α : Type} {ps ps' : List (String × α)}
    (hperm : ps.Perm ps') (hnodup : (ps.map Prod.fst).Nodup) (n : String) :
    lookupAssoc ps n = lookupAssoc ps' n := by
  induction hperm with
  | nil => rfl
  | cons x h ih =>
    rw [List.map_cons, List.nodup_cons] at hnodup
    by_cases hx : x.1 = n
    · simp [lookupAssoc, hx]
    · simp [lookupAssoc, hx]
      exact ih hnodup.2
  | swap x y l =>
    rw [List.map_cons, List.map_cons, List.nodup_cons] at hnodup
    have hne : y.1 ≠ x.1 := fun hc => hnodup.1 (List.mem_cons.mpr (Or.inl hc))
    by_cases h1 : y.1 = n <;> by_cases h2 : x.1 = n <;>
      simp [lookupAssoc, h1, h2]
    exact absurd (h1.trans h2.symm) hne
  | trans h₁ h₂ ih₁ ih₂ =>
    have hnd₂ : _ := ((h₁.map Prod.fst).nodup_iff).mp hnodup
    exact (ih₁ hnodup).trans (ih₂ hnd₂)

/-- C4: the argument list a render returns is exactly the list of runtime
placeholder values in the order the markers appear during a left-to-right,
depth-first walk of the rendered document (renderedArgs, the spec-side
walk); and the render (hence that list) is independent of the parameters'
declaration order in the MethodSpec, as long as parameter names are
unique. -/
theorem argument_order_dfs (d : Doc) :
    (∀ ctx : Ctx, (render d ctx).2 = renderedArgs d ctx)
    ∧ (∀ (table : String) (catalog : List (String × String))
        (ps ps' : List (String × Val)),
        ps.Perm ps' → (ps.map Prod.fst).Nodup →
        render d (mkCtx table catalog ps) = render d (mkCtx table catalog ps')) := by
  constructor
  · induction d with
    | nil => intro ctx; rfl
    | lit text => intro ctx; rfl
    | table => intro ctx; rfl
    | col f => intro ctx; rfl
    | arg r => intro ctx; rfl
    | seq a b iha ihb => intro ctx; simp [render, renderedArgs, iha, ihb]
    | ite c thenB elseB ihT ihE =>
      intro ctx
      by_cases h : evalCond c ctx.snap <;> simp [render, renderedArgs, h, ihT, ihE]
    | loop b src body ih =>
      intro ctx
      simp only [render, renderedArgs]
      exact congrArg List.flatten
        (List.map_congr_left (fun v _ => ih (Ctx.bind ctx b v)))
    | whereB body ih => intro ctx; simp [render, renderedArgs, ih]
    | setB body ih => intro ctx; simp [render, renderedArgs, ih]
  · intro table catalog ps ps' hperm hnodup
    have hctx : mkCtx table catalog ps = mkCtx table catalog ps' :=
      congrArg (Ctx.mk table catalog)
        (funext fun n => lookupAssoc_perm hperm hnodup n)
    rw [hctx]

/-- Witness for C4: for `@@table WHERE id=? AND name=?` the argument list is
`[3, "x"]` in marker order, under either declaration order of the
parameters. -/
theorem argument_order_dfs_witness :
    (render argOrderDemoDoc (mkCtx "users" [] argOrderDemoParams)).2
      = renderedArgs argOrderDemoDoc (mkCtx "users" [] argOrderDemoParams)
    ∧ render argOrderDemoDoc (mkCtx "users" [] argOrderDemoParams)
        = render argOrderDemoDoc (mkCtx "users" [] argOrderDemoParamsRev) :=
  ⟨(argument_order_dfs argOrderDemoDoc).1 (mkCtx "users" [] argOrderDemoParams),
   (argument_order_dfs argOrderDemoDoc).2 "users" [] argOrderDemoParams
     argOrderDemoParamsRev
     (by unfold argOrderDemoParams argOrderDemoParamsRev
         exact List.Perm.swap ("name", Val.str "x") ("id", Val.int 3) [])
     (by decide)⟩

end GormCli
